import Mathlib

set_option maxRecDepth 100000

/-
Verification of the OpenAI LLM service adapter of deldesir/mailroom.

The embedded code is the completed implementation of the adapter
(src/unnamed/part_000, package openai): the constructor New, the message
builder inside service.Response, the success-path normalization, and the
error classifier service.error.  The repository also carries an earlier,
unfinished draft of the same file (src/services/llm/openai/service.go)
whose JSON-sniffing block is empty and whose plain-text fallback is
unconditional; the completed file is the one whose behaviour the design
document describes as correct, so it is the one embedded here.

Machine integers do not occur in the core logic; token counts are
modelled as Nat.  The HTTP transport and the OpenAI client are external
collaborators and are modelled as an explicit completion function passed
to service.Response.  Go's encoding/json is embedded as an executable
JSON parser plus a struct decoder following encoding/json semantics for
the one decode target the code uses (unknown fields ignored, ASCII
case-insensitive field-name matching, null leaving the current value,
type mismatches producing a decode error, trailing data rejected).
-/

/-- Conversation roles produced by oai.SystemMessage / UserMessage /
AssistantMessage in part_000. -/
inductive Role where
  | system
  | user
  | assistant
deriving DecidableEq

/-- One role-tagged message sent to the completion endpoint
(oai.ChatCompletionMessageParamUnion restricted to the three
constructors the code uses). -/
structure ConversationTurn where
  role : Role
  content : String
deriving DecidableEq

/-- One element of the anonymous struct decoded from the input JSON in
part_000 lines 69-74: role and content strings. -/
structure InputMessage where
  role : String
  content : String
deriving DecidableEq

/-- The anonymous decode target of part_000 lines 69-74: a sequence of
messages under the key called messages. -/
structure StructuredInputPayload where
  messages : List InputMessage
deriving DecidableEq

/-- Go unicode.IsSpace, the predicate behind strings.TrimSpace. -/
def goIsSpace (c : Char) : Bool :=
  let n := c.toNat
  (9 ≤ n && n ≤ 13) || n == 32 || n == 0x85 || n == 0xA0 || n == 0x1680 ||
  (0x2000 ≤ n && n ≤ 0x200A) || n == 0x2028 || n == 0x2029 ||
  n == 0x202F || n == 0x205F || n == 0x3000

/-- strings.TrimSpace on the character list of a string: drop leading and
trailing characters satisfying goIsSpace. -/
def goTrimSpaceL (cs : List Char) : List Char :=
  ((cs.dropWhile goIsSpace).reverse.dropWhile goIsSpace).reverse

/-- JSON values, the image of Go's encoding/json grammar.  Numbers keep
their lexeme: the decode target has no numeric field, so their value is
never consulted. -/
inductive JsonValue where
  | null
  | bool (b : Bool)
  | num (lexeme : String)
  | str (s : String)
  | arr (elems : List JsonValue)
  | obj (fields : List (String × JsonValue))

/-- JSON insignificant whitespace (space, tab, newline, carriage return). -/
def isJsonWs (c : Char) : Bool :=
  c == ' ' || c == '\t' || c == '\n' || c == '\x0d'

/-- Drop leading JSON whitespace. -/
def skipWs : List Char → List Char
  | [] => []
  | c :: cs => if isJsonWs c then skipWs cs else c :: cs

/-- Value of one hexadecimal digit. -/
def hexVal (c : Char) : Option Nat :=
  let n := c.toNat
  if 48 ≤ n ∧ n ≤ 57 then some (n - 48)
  else if 97 ≤ n ∧ n ≤ 102 then some (n - 87)
  else if 65 ≤ n ∧ n ≤ 70 then some (n - 55)
  else none

/-- Value of a four-hex-digit escape payload. -/
def hex4 (a b c d : Char) : Option Nat :=
  match hexVal a, hexVal b, hexVal c, hexVal d with
  | some x, some y, some z, some w => some (((x * 16 + y) * 16 + z) * 16 + w)
  | _, _, _, _ => none

/-- Single-character JSON string escapes. -/
def escChar (e : Char) : Option Char :=
  if e = '\"' then some '\"'
  else if e = '\\' then some '\\'
  else if e = '/' then some '/'
  else if e = 'b' then some (Char.ofNat 8)
  else if e = 'f' then some (Char.ofNat 12)
  else if e = 'n' then some '\n'
  else if e = 'r' then some (Char.ofNat 13)
  else if e = 't' then some '\t'
  else none

/-- Parse the body of a JSON string after its opening quote, returning
the decoded characters and the rest after the closing quote.  Unescaped
control characters are rejected; surrogate escape pairs are combined and
invalid surrogate escapes decode to U+FFFD as in Go's encoding/json.
The fuel only bounds the recursion; every step consumes at least one
character, so fuel equal to the list length plus one always suffices. -/
def parseStringBodyF : Nat → List Char → Option (List Char × List Char)
  | 0, _ => none
  | _, [] => none
  | Nat.succ fl, c :: cs =>
    if c = '\"' then some ([], cs)
    else if c = '\\' then
      match cs with
      | [] => none
      | e :: cs2 =>
        if e = 'u' then
          match cs2 with
          | h1 :: h2 :: h3 :: h4 :: cs3 =>
            match hex4 h1 h2 h3 h4 with
            | none => none
            | some n =>
              if 0xD800 ≤ n ∧ n ≤ 0xDBFF then
                match cs3 with
                | b1 :: b2 :: g1 :: g2 :: g3 :: g4 :: cs4 =>
                  if b1 = '\\' ∧ b2 = 'u' then
                    match hex4 g1 g2 g3 g4 with
                    | some m =>
                      if 0xDC00 ≤ m ∧ m ≤ 0xDFFF then
                        (fun r => (Char.ofNat (0x10000 + (n - 0xD800) * 0x400 + (m - 0xDC00)) :: r.1, r.2)) <$>
                          parseStringBodyF fl cs4
                      else
                        (fun r => (Char.ofNat 0xFFFD :: r.1, r.2)) <$> parseStringBodyF fl cs3
                    | none => (fun r => (Char.ofNat 0xFFFD :: r.1, r.2)) <$> parseStringBodyF fl cs3
                  else (fun r => (Char.ofNat 0xFFFD :: r.1, r.2)) <$> parseStringBodyF fl cs3
                | _ => (fun r => (Char.ofNat 0xFFFD :: r.1, r.2)) <$> parseStringBodyF fl cs3
              else if 0xDC00 ≤ n ∧ n ≤ 0xDFFF then
                (fun r => (Char.ofNat 0xFFFD :: r.1, r.2)) <$> parseStringBodyF fl cs3
              else
                (fun r => (Char.ofNat n :: r.1, r.2)) <$> parseStringBodyF fl cs3
          | _ => none
        else
          match escChar e with
          | some ec => (fun r => (ec :: r.1, r.2)) <$> parseStringBodyF fl cs2
          | none => none
    else if c.toNat < 32 then none
    else (fun r => (c :: r.1, r.2)) <$> parseStringBodyF fl cs

/-- parseStringBodyF with enough fuel for its input. -/
def parseStringBody (cs : List Char) : Option (List Char × List Char) :=
  parseStringBodyF (cs.length + 1) cs

/-- Longest prefix of decimal digits and the remainder. -/
def spanDigits : List Char → List Char × List Char
  | [] => ([], [])
  | c :: cs =>
    if c.isDigit then
      match spanDigits cs with
      | (d, r) => (c :: d, r)
    else ([], c :: cs)

/-- JSON number integer part: a single zero, or a nonzero digit followed
by digits. -/
def parseIntPart (cs : List Char) : Option (List Char × List Char) :=
  match cs with
  | [] => none
  | c :: cs2 =>
    if c = '0' then some ([c], cs2)
    else if c.isDigit then
      match spanDigits cs2 with
      | (d, r) => some (c :: d, r)
    else none

/-- JSON number fraction part (possibly empty). -/
def parseFracPart (cs : List Char) : Option (List Char × List Char) :=
  match cs with
  | [] => some ([], [])
  | c :: cs2 =>
    if c = '.' then
      match spanDigits cs2 with
      | ([], _) => none
      | (d, r) => some (c :: d, r)
    else some ([], cs)

/-- JSON number exponent part (possibly empty). -/
def parseExpPart (cs : List Char) : Option (List Char × List Char) :=
  match cs with
  | [] => some ([], [])
  | c :: cs2 =>
    if c = 'e' ∨ c = 'E' then
      match cs2 with
      | [] => none
      | s :: cs3 =>
        if s = '+' ∨ s = '-' then
          match spanDigits cs3 with
          | ([], _) => none
          | (d, r) => some (c :: s :: d, r)
        else
          match spanDigits cs2 with
          | ([], _) => none
          | (d, r) => some (c :: d, r)
    else some ([], cs)

/-- Parse a JSON number lexeme (sign, integer, fraction, exponent). -/
def parseNumber (cs : List Char) : Option (List Char × List Char) :=
  let signSplit : List Char × List Char :=
    match cs with
    | c :: cs2 => if c = '-' then ([c], cs2) else ([], cs)
    | [] => ([], [])
  match parseIntPart signSplit.2 with
  | none => none
  | some (ip, cs2) =>
    match parseFracPart cs2 with
    | none => none
    | some (fp, cs3) =>
      match parseExpPart cs3 with
      | none => none
      | some (ep, cs4) => some (signSplit.1 ++ ip ++ fp ++ ep, cs4)

/-- Parser mode: a single value, the elements of an array after its
opening bracket, or the fields of an object after its opening brace. -/
inductive PMode where
  | val
  | elems
  | fields

/-- Parser result for each mode. -/
inductive PRes where
  | v (j : JsonValue)
  | es (l : List JsonValue)
  | fs (l : List (String × JsonValue))

/-- Fuel-indexed recursive-descent JSON parser.  The fuel only bounds
nesting of the recursion; parseJson supplies enough for any input of the
given length. -/
def parseP : Nat → PMode → List Char → Option (PRes × List Char)
  | 0, _, _ => none
  | Nat.succ n, PMode.val, cs =>
    match skipWs cs with
    | [] => none
    | c :: rest =>
      if c = '\"' then
        match parseStringBody rest with
        | some (chars, rest2) => some (PRes.v (JsonValue.str (String.mk chars)), rest2)
        | none => none
      else if c = '\x7b' then
        match skipWs rest with
        | '\x7d' :: rest2 => some (PRes.v (JsonValue.obj []), rest2)
        | rest2 =>
          match parseP n PMode.fields rest2 with
          | some (PRes.fs fs, rest3) => some (PRes.v (JsonValue.obj fs), rest3)
          | _ => none
      else if c = '[' then
        match skipWs rest with
        | ']' :: rest2 => some (PRes.v (JsonValue.arr []), rest2)
        | rest2 =>
          match parseP n PMode.elems rest2 with
          | some (PRes.es es, rest3) => some (PRes.v (JsonValue.arr es), rest3)
          | _ => none
      else if c = 't' then
        match rest with
        | 'r' :: 'u' :: 'e' :: rest2 => some (PRes.v (JsonValue.bool true), rest2)
        | _ => none
      else if c = 'f' then
        match rest with
        | 'a' :: 'l' :: 's' :: 'e' :: rest2 => some (PRes.v (JsonValue.bool false), rest2)
        | _ => none
      else if c = 'n' then
        match rest with
        | 'u' :: 'l' :: 'l' :: rest2 => some (PRes.v JsonValue.null, rest2)
        | _ => none
      else
        match parseNumber (c :: rest) with
        | some (lex, rest2) => some (PRes.v (JsonValue.num (String.mk lex)), rest2)
        | none => none
  | Nat.succ n, PMode.elems, cs =>
    match parseP n PMode.val cs with
    | some (PRes.v v, rest) =>
      match skipWs rest with
      | ',' :: rest2 =>
        match parseP n PMode.elems rest2 with
        | some (PRes.es es, rest3) => some (PRes.es (v :: es), rest3)
        | _ => none
      | ']' :: rest2 => some (PRes.es [v], rest2)
      | _ => none
    | _ => none
  | Nat.succ n, PMode.fields, cs =>
    match skipWs cs with
    | '\"' :: rest =>
      match parseStringBody rest with
      | some (keyChars, rest2) =>
        match skipWs rest2 with
        | ':' :: rest3 =>
          match parseP n PMode.val rest3 with
          | some (PRes.v v, rest4) =>
            match skipWs rest4 with
            | ',' :: rest5 =>
              match parseP n PMode.fields rest5 with
              | some (PRes.fs fs, rest6) => some (PRes.fs ((String.mk keyChars, v) :: fs), rest6)
              | _ => none
            | '\x7d' :: rest5 => some (PRes.fs [(String.mk keyChars, v)], rest5)
            | _ => none
          | _ => none
        | _ => none
      | none => none
    | _ => none

/-- Parse a complete JSON document: one value, optionally surrounded by
whitespace, with nothing after it (encoding/json rejects trailing
data). -/
def parseJson (input : String) : Option JsonValue :=
  match parseP (2 * input.data.length + 2) PMode.val input.data with
  | some (PRes.v j, rest) => if skipWs rest = [] then some j else none
  | _ => none

/-- ASCII lower-casing of one character, the folding strings.EqualFold
performs on the ASCII field names of the decode target. -/
def lowerChar (c : Char) : Char :=
  if 65 ≤ c.toNat ∧ c.toNat ≤ 90 then Char.ofNat (c.toNat + 32) else c

/-- ASCII lower-casing of a string. -/
def asciiLower (s : String) : String :=
  String.mk (s.data.map lowerChar)

/-- Case-insensitive equality of field names, as encoding/json matches
JSON object keys against struct field names. -/
def eqFold (a b : String) : Bool :=
  a.data.map lowerChar == b.data.map lowerChar

/-- Apply one JSON object field to an InputMessage being decoded,
following encoding/json: keys matching role or content
case-insensitively must hold a string (null leaves the current value);
other keys are ignored; a type mismatch is a decode error. -/
def applyMsgField (m : InputMessage) (kv : String × JsonValue) : Option InputMessage :=
  if eqFold kv.1 "role" then
    match kv.2 with
    | JsonValue.str s => some ⟨s, m.content⟩
    | JsonValue.null => some m
    | _ => none
  else if eqFold kv.1 "content" then
    match kv.2 with
    | JsonValue.str s => some ⟨m.role, s⟩
    | JsonValue.null => some m
    | _ => none
  else some m

/-- Decode one element of the messages array: an object decoded field by
field (later duplicate keys win), or null for the zero value. -/
def decodeMsg : JsonValue → Option InputMessage
  | JsonValue.null => some ⟨"", ""⟩
  | JsonValue.obj fs => fs.foldlM applyMsgField ⟨"", ""⟩
  | _ => none

/-- Apply one top-level JSON object field to the payload being decoded:
a key matching messages case-insensitively must hold an array of
messages (null leaves the current value); other keys are ignored. -/
def applyPayloadField (p : StructuredInputPayload) (kv : String × JsonValue) :
    Option StructuredInputPayload :=
  if eqFold kv.1 "messages" then
    match kv.2 with
    | JsonValue.null => some p
    | JsonValue.arr xs => (fun l => ⟨l⟩) <$> xs.mapM decodeMsg
    | _ => none
  else some p

/-- Decode a parsed JSON document into StructuredInputPayload following
encoding/json: the document must be an object (or null, leaving the
zero value); unknown fields are ignored. -/
def decodePayload : JsonValue → Option StructuredInputPayload
  | JsonValue.null => some ⟨[]⟩
  | JsonValue.obj fs => fs.foldlM applyPayloadField ⟨[]⟩
  | _ => none

/-- json.Unmarshal of the input into the anonymous payload struct of
part_000 lines 69-74: none models a non-nil error. -/
def jsonUnmarshalPayload (input : String) : Option StructuredInputPayload :=
  match parseJson input with
  | some j => decodePayload j
  | none => none

/-- The switch over msg.Role in part_000 lines 81-91: system and
assistant are matched exactly, user falls through to the default, and
the default builds a user message. -/
def turnForMessage (m : InputMessage) : ConversationTurn :=
  if m.role = "system" then ⟨Role.system, m.content⟩
  else if m.role = "assistant" then ⟨Role.assistant, m.content⟩
  else ⟨Role.user, m.content⟩

/-- Part_000 lines 62-65: the system turn for the instructions, present
exactly when the instructions string is non-empty (the code compares
against the empty string without trimming). -/
def sysTurnsOf (instructions : String) : List ConversationTurn :=
  if instructions = "" then [] else [⟨Role.system, instructions⟩]

/-- Part_000 lines 76-78: the decoded payload, attempted only when the
trimmed input is non-empty and starts with an opening brace; none when
the guard fails or json.Unmarshal errors. -/
def inputPayload (input : String) : Option StructuredInputPayload :=
  if goTrimSpaceL input.data ≠ [] ∧ (goTrimSpaceL input.data).head? = some '\x7b'
  then jsonUnmarshalPayload input else none

/-- The isJSON flag of part_000 lines 76-92: true exactly when the
sniffed payload decoded and its messages sequence is non-empty. -/
def isJSON (input : String) : Bool :=
  match inputPayload input with
  | some p => !p.messages.isEmpty
  | none => false

/-- The turns appended by the multi-turn loop of part_000 lines 80-91:
one turn per decoded message, in order; nothing when multi-turn mode is
not entered. -/
def multiTurnTurns (input : String) : List ConversationTurn :=
  match inputPayload input with
  | some p => if p.messages.isEmpty then [] else p.messages.map turnForMessage
  | none => []

/-- The message builder of service.Response, part_000 lines 59-98: the
instructions turn, then the multi-turn expansion, then the plain-text
fallback user turn exactly when isJSON is false and the trimmed input is
non-empty. -/
def buildMessages (instructions input : String) : List ConversationTurn :=
  if !(isJSON input) && !(goTrimSpaceL input.data).isEmpty then
    sysTurnsOf instructions ++ (multiTurnTurns input ++ [⟨Role.user, input⟩])
  else
    sysTurnsOf instructions ++ multiTurnTurns input

/-- The message content of one completion choice
(resp.Choices[i].Message.Content). -/
structure ChatMessage where
  content : String
deriving DecidableEq

/-- One completion choice of the provider response. -/
structure ChatChoice where
  message : ChatMessage
deriving DecidableEq

/-- The usage block of the provider response (resp.Usage.TotalTokens). -/
structure ChatUsage where
  totalTokens : Nat
deriving DecidableEq

/-- The provider response consumed by service.Response: a list of
choices and a usage block. -/
structure ChatCompletion where
  choices : List ChatChoice
  usage : ChatUsage
deriving DecidableEq

/-- flows.LLMResponse: the result returned to the caller. -/
structure LLMResponse where
  output : String
  tokensUsed : Nat
deriving DecidableEq

/-- The ai error codes used by service.error (ai.ErrorUnknown,
ai.ErrorCredentials, ai.ErrorRateLimit). -/
inductive AIErrorCode where
  | unknown
  | credentials
  | rateLimit
deriving DecidableEq

/-- ai.ServiceError as populated by service.error. -/
structure ServiceError where
  message : String
  code : AIErrorCode
  instructions : String
  input : String
deriving DecidableEq

/-- A Go error value as service.error observes it: its Error() text, and
the status code of the oai.Error found by errors.As when the error is
(or wraps) a provider API error. -/
structure GoError where
  message : String
  apiStatus : Option Nat
deriving DecidableEq

/-- service.error, part_000 lines 120-131: classify the error by HTTP
status (401 credentials, 429 rate limit, anything else unknown) and
package it with the original message, instructions and input. -/
def service.error (err : GoError) (instructions input : String) : ServiceError :=
  let code : AIErrorCode :=
    match err.apiStatus with
    | some status =>
      if status = 401 then AIErrorCode.credentials
      else if status = 429 then AIErrorCode.rateLimit
      else AIErrorCode.unknown
    | none => AIErrorCode.unknown
  ⟨err.message, code, instructions, input⟩

/-- service.Response, part_000 lines 59-118.  The remote completion call
(client.Chat.Completions.New with the fixed model, temperature and token
ceiling) is the external collaborator, passed as the function complete
from the built messages to a provider response or error. -/
def service.Response (complete : List ConversationTurn → Except GoError ChatCompletion)
    (instructions input : String) : Except ServiceError LLMResponse :=
  match complete (buildMessages instructions input) with
  | Except.error err => Except.error (service.error err instructions input)
  | Except.ok resp =>
    match resp.choices with
    | [] => Except.ok ⟨"", 0⟩
    | c :: _ => Except.ok ⟨c.message.content, resp.usage.totalTokens⟩

/-- Modelled from the spec: the models.LLM configuration collaborator is
not under src.  Per the spec, the configuration source supplies per
adapter instance a required API key credential (GetString returns the
empty string when it is absent), an optional endpoint override, the
target model identifier, and the UUID used in the construction error. -/
structure LLM where
  uuid : String
  apiKey : String
  endpoint : String
  model : String

/-- The state the constructed service keeps: the configured model and
the optional base-URL override of the client (part_000 lines 44-56). -/
structure ServiceState where
  model : String
  baseURL : Option String
deriving DecidableEq

/-- New, part_000 lines 38-57: fail with a plain construction error when
the API key is absent, otherwise build the service. -/
def New (m : LLM) : Except String ServiceState :=
  if m.apiKey = "" then Except.error ("config incomplete for LLM: " ++ m.uuid)
  else Except.ok ⟨m.model, if m.endpoint = "" then none else some m.endpoint⟩

/-- The structured multi-turn example of the design document: a messages
array with roles system, user, assistant and weird carrying contents A,
B, C and D. -/
def exampleMultiTurnInput : String :=
  "\x7b\"messages\":[\x7b\"role\":\"system\",\"content\":\"A\"\x7d,\x7b\"role\":\"user\",\"content\":\"B\"\x7d,\x7b\"role\":\"assistant\",\"content\":\"C\"\x7d,\x7b\"role\":\"weird\",\"content\":\"D\"\x7d]\x7d"

/-- The design document's example of an input that starts with an opening
brace and is valid JSON but is not a structured payload: a single foo
field holding bar. -/
def exampleNonPayloadInput : String := "\x7b\"foo\":\"bar\"\x7d"

/-- A structured payload whose roles differ from the lowercase literals
only in case: System, SYSTEM and Assistant. -/
def exampleCaseRolesInput : String :=
  "\x7b\"messages\":[\x7b\"role\":\"System\",\"content\":\"A\"\x7d,\x7b\"role\":\"SYSTEM\",\"content\":\"B\"\x7d,\x7b\"role\":\"Assistant\",\"content\":\"C\"\x7d]\x7d"

lemma isEmpty_false_of_ne_nil {α : Type} {l : List α} (h : l ≠ []) : l.isEmpty = false := by
  cases l with
  | nil => exact absurd rfl h
  | cons a t => rfl

lemma eq_nil_of_isEmpty {α : Type} {l : List α} (h : l.isEmpty = true) : l = [] := by
  cases l with
  | nil => rfl
  | cons a t => simp [List.isEmpty] at h

lemma inputPayload_none_of_blank (input : String) (h : goTrimSpaceL input.data = []) :
    inputPayload input = none := by
  unfold inputPayload
  rw [if_neg]
  rintro ⟨hne, -⟩
  exact hne h

lemma multiTurn_of_payload (input : String) (p : StructuredInputPayload)
    (hp : inputPayload input = some p) (hne : p.messages ≠ []) :
    isJSON input = true ∧ multiTurnTurns input = p.messages.map turnForMessage := by
  constructor
  · simp only [isJSON, hp]
    rw [isEmpty_false_of_ne_nil hne]
    rfl
  · simp only [multiTurnTurns, hp]
    rw [isEmpty_false_of_ne_nil hne]
    simp

lemma multiTurnTurns_eq_nil (input : String) (hJ : isJSON input = false) :
    multiTurnTurns input = [] := by
  simp only [isJSON] at hJ
  simp only [multiTurnTurns]
  cases hp : inputPayload input with
  | none => rfl
  | some p =>
    rw [hp] at hJ
    simp only [Bool.not_eq_false'] at hJ
    simp [hJ]

lemma build_multiTurn (instructions input : String) (p : StructuredInputPayload)
    (hp : inputPayload input = some p) (hne : p.messages ≠ []) :
    buildMessages instructions input = sysTurnsOf instructions ++ p.messages.map turnForMessage := by
  obtain ⟨hJ, hM⟩ := multiTurn_of_payload input p hp hne
  unfold buildMessages
  rw [hJ, hM]
  simp

lemma build_fallback (instructions input : String) (hJ : isJSON input = false) :
    buildMessages instructions input =
      sysTurnsOf instructions ++
        (if (goTrimSpaceL input.data).isEmpty then [] else [⟨Role.user, input⟩]) := by
  have hM := multiTurnTurns_eq_nil input hJ
  unfold buildMessages
  rw [hJ, hM]
  cases h : (goTrimSpaceL input.data).isEmpty <;> simp [h]

lemma exists_payload_of_isJSON (input : String) (hJ : isJSON input = true) :
    ∃ p, inputPayload input = some p ∧ p.messages ≠ [] := by
  simp only [isJSON] at hJ
  cases hp : inputPayload input with
  | none => rw [hp] at hJ; exact absurd hJ (by simp)
  | some p =>
    rw [hp] at hJ
    simp only [Bool.not_eq_eq_eq_not, Bool.not_true] at hJ
    refine ⟨p, rfl, ?_⟩
    intro hmsg
    rw [hmsg] at hJ
    simp [List.isEmpty] at hJ

lemma build_decomp (instructions input : String) :
    buildMessages instructions input = sysTurnsOf instructions ++ buildMessages "" input := by
  unfold buildMessages
  cases hc : (!(isJSON input) && !(goTrimSpaceL input.data).isEmpty) <;>
    simp [sysTurnsOf]

/-- C1: for every instructions string and every input whose trimmed value
starts with an opening brace and decodes to a StructuredInputPayload
with a non-empty messages sequence, the message builder of
service.Response appends only the expanded multi-turn messages after the
instructions turn and does not additionally append the plain-text
fallback user turn containing the raw input: multi-turn mode and
plain-text mode are mutually exclusive per call. -/
theorem C1_multi_turn_suppresses_plain_fallback
    (instructions input : String) (p : StructuredInputPayload)
    (hne : goTrimSpaceL input.data ≠ [])
    (hbrace : (goTrimSpaceL input.data).head? = some '\x7b')
    (hdec : jsonUnmarshalPayload input = some p)
    (hmsgs : p.messages ≠ []) :
    buildMessages instructions input =
      sysTurnsOf instructions ++ p.messages.map turnForMessage := by
  have hp : inputPayload input = some p := by
    unfold inputPayload
    rw [if_pos ⟨hne, hbrace⟩, hdec]
  exact build_multiTurn instructions input p hp hmsgs

/-- Witness for C1 at the design document's multi-turn example input. -/
theorem C1_multi_turn_suppresses_plain_fallback_witness :
    buildMessages "inst" exampleMultiTurnInput =
      sysTurnsOf "inst" ++
        List.map turnForMessage
          [⟨"system", "A"⟩, ⟨"user", "B"⟩, ⟨"assistant", "C"⟩, ⟨"weird", "D"⟩] :=
  C1_multi_turn_suppresses_plain_fallback "inst" exampleMultiTurnInput
    ⟨[⟨"system", "A"⟩, ⟨"user", "B"⟩, ⟨"assistant", "C"⟩, ⟨"weird", "D"⟩]⟩
    (by decide) (by decide) (by decide) (by decide)

/-- C2: service.error classifies a provider API error with HTTP status
401 as Credentials, status 429 as RateLimit, any other status and any
non-API error as Unknown, and always carries the original error text,
instructions and input; service.Response surfaces exactly this
ServiceError when the completion call fails. -/
theorem C2_error_classification (err : GoError) (instructions input : String) :
    ((err.apiStatus = some 401 →
        (service.error err instructions input).code = AIErrorCode.credentials) ∧
     (err.apiStatus = some 429 →
        (service.error err instructions input).code = AIErrorCode.rateLimit) ∧
     (∀ s : Nat, err.apiStatus = some s → s ≠ 401 → s ≠ 429 →
        (service.error err instructions input).code = AIErrorCode.unknown) ∧
     (err.apiStatus = none →
        (service.error err instructions input).code = AIErrorCode.unknown)) ∧
    ((service.error err instructions input).message = err.message ∧
     (service.error err instructions input).instructions = instructions ∧
     (service.error err instructions input).input = input) ∧
    (∀ complete : List ConversationTurn → Except GoError ChatCompletion,
      complete (buildMessages instructions input) = Except.error err →
        service.Response complete instructions input =
          Except.error (service.error err instructions input)) := by
  refine ⟨⟨?_, ?_, ?_, ?_⟩, ⟨rfl, rfl, rfl⟩, ?_⟩
  · intro h; simp [service.error, h]
  · intro h; simp [service.error, h]
  · intro s hs h1 h2; simp [service.error, hs, h1, h2]
  · intro h; simp [service.error, h]
  · intro complete hc
    unfold service.Response
    rw [hc]

/-- Witness for C2 at a status-401 provider error. -/
theorem C2_error_classification_witness :
    (service.error ⟨"boom", some 401⟩ "i" "x").code = AIErrorCode.credentials :=
  (C2_error_classification ⟨"boom", some 401⟩ "i" "x").1.1 rfl

/-- C3: on the success path service.Response returns a non-error result:
an empty choices list yields empty output with zero tokens used, and
otherwise the output is the first choice's message content together with
the response's total token count, consulting only the first choice. -/
theorem C3_success_path
    (complete : List ConversationTurn → Except GoError ChatCompletion)
    (instructions input : String) (resp : ChatCompletion)
    (h : complete (buildMessages instructions input) = Except.ok resp) :
    service.Response complete instructions input =
      Except.ok
        (match resp.choices with
         | [] => ⟨"", 0⟩
         | c :: _ => ⟨c.message.content, resp.usage.totalTokens⟩) := by
  unfold service.Response
  rw [h]
  cases resp with
  | mk choices usage => cases choices <;> rfl

/-- Witness for C3 at a zero-choice provider response. -/
theorem C3_success_path_witness :
    service.Response (fun _ => Except.ok ⟨[], ⟨7⟩⟩) "i" "x" = Except.ok ⟨"", 0⟩ :=
  C3_success_path (fun _ => Except.ok ⟨[], ⟨7⟩⟩) "i" "x" ⟨[], ⟨7⟩⟩ rfl

/-- C4: in multi-turn mode the builder appends one turn per decoded
message in decoded order, mapping role system to a system turn,
assistant to an assistant turn and any other role to a user turn; at the
design document's example input with blank instructions the built
sequence is exactly system A, user B, assistant C, user D. -/
theorem C4_multi_turn_role_mapping :
    (∀ (instructions input : String) (p : StructuredInputPayload),
        goTrimSpaceL input.data ≠ [] →
        (goTrimSpaceL input.data).head? = some '\x7b' →
        jsonUnmarshalPayload input = some p →
        p.messages ≠ [] →
        buildMessages instructions input =
          sysTurnsOf instructions ++ p.messages.map turnForMessage) ∧
    (∀ c : String, turnForMessage ⟨"system", c⟩ = ⟨Role.system, c⟩) ∧
    (∀ c : String, turnForMessage ⟨"assistant", c⟩ = ⟨Role.assistant, c⟩) ∧
    (∀ r c : String, r ≠ "system" → r ≠ "assistant" →
        turnForMessage ⟨r, c⟩ = ⟨Role.user, c⟩) ∧
    buildMessages "" exampleMultiTurnInput =
      [⟨Role.system, "A"⟩, ⟨Role.user, "B"⟩, ⟨Role.assistant, "C"⟩, ⟨Role.user, "D"⟩] := by
  refine ⟨?_, ?_, ?_, ?_, by decide⟩
  · intro instructions input p h1 h2 h3 h4
    have hp : inputPayload input = some p := by
      unfold inputPayload
      rw [if_pos ⟨h1, h2⟩, h3]
    exact build_multiTurn instructions input p hp h4
  · intro c; rfl
  · intro c; rfl
  · intro r c h1 h2
    unfold turnForMessage
    rw [if_neg h1, if_neg h2]

/-- Witness for C4 at the unrecognized role of the example. -/
theorem C4_multi_turn_role_mapping_witness :
    turnForMessage ⟨"weird", "D"⟩ = ⟨Role.user, "D"⟩ :=
  C4_multi_turn_role_mapping.2.2.2.1 "weird" "D" (by decide) (by decide)

/-- C5: whenever multi-turn mode was not entered (the isJSON flag stayed
false), a non-blank input contributes exactly one user turn holding the
original untrimmed input string, and a blank input contributes no
turn. -/
theorem C5_plain_text_mode (instructions input : String)
    (h : isJSON input = false) :
    (goTrimSpaceL input.data ≠ [] →
      buildMessages instructions input =
        sysTurnsOf instructions ++ [⟨Role.user, input⟩]) ∧
    (goTrimSpaceL input.data = [] →
      buildMessages instructions input = sysTurnsOf instructions) := by
  constructor
  · intro ht
    rw [build_fallback instructions input h]
    simp [isEmpty_false_of_ne_nil ht]
  · intro ht
    rw [build_fallback instructions input h]
    rw [ht]
    simp

/-- Witness for C5 at a plain-text input. -/
theorem C5_plain_text_mode_witness :
    buildMessages "sys" "hello" = sysTurnsOf "sys" ++ [⟨Role.user, "hello"⟩] :=
  (C5_plain_text_mode "sys" "hello" (by decide)).1 (by decide)

/-- C6 counterexample: the claim predicts that an all-whitespace
instructions string (blank after trimming) produces no system turn, but
the code compares instructions against the empty string without
trimming: with instructions a single space and empty input, the trimmed
instructions are blank yet the built sequence is exactly one system turn
whose content is that space. -/
theorem C6_counterexample :
    goTrimSpaceL (String.data " ") = [] ∧
      buildMessages " " "" = [⟨Role.system, " "⟩] := by decide

/-- C6 (amended): the builder prepends the instructions system turn if
and only if instructions is non-empty as given, with no trimming: for
non-empty instructions the built sequence is the system turn with
content equal to instructions followed by the turns built for the input
alone, and for empty instructions it is exactly the turns built for the
input alone.  An all-whitespace instructions string therefore produces a
system turn carrying that whitespace. -/
theorem C6_instructions_turn_iff_nonempty (instructions input : String) :
    (instructions ≠ "" →
      buildMessages instructions input =
        ⟨Role.system, instructions⟩ :: buildMessages "" input) ∧
    (instructions = "" →
      buildMessages instructions input = buildMessages "" input) := by
  constructor
  · intro h
    rw [build_decomp instructions input]
    unfold sysTurnsOf
    rw [if_neg h]
    rfl
  · intro h
    rw [build_decomp instructions input, h]
    simp [sysTurnsOf]

/-- Witness for C6 (amended) at the all-whitespace instructions of the
counterexample. -/
theorem C6_instructions_turn_iff_nonempty_witness :
    buildMessages " " "" = ⟨Role.system, " "⟩ :: buildMessages "" "" :=
  (C6_instructions_turn_iff_nonempty " " "").1 (by decide)

/-- C7 counterexample: the claim predicts an empty turn sequence exactly
when both instructions and input are blank (empty or all-whitespace),
but with instructions a single space and empty input — both blank after
trimming — the built sequence is non-empty. -/
theorem C7_counterexample :
    goTrimSpaceL (String.data " ") = [] ∧ goTrimSpaceL (String.data "") = [] ∧
      buildMessages " " "" ≠ [] := by decide

/-- C7 (amended): the built ConversationTurn sequence is non-empty
whenever instructions is non-empty or the input is non-blank, and it is
empty exactly when instructions is the empty string (untrimmed
comparison) and the input is blank after trimming. -/
theorem C7_empty_iff_both_empty (instructions input : String) :
    buildMessages instructions input = [] ↔
      instructions = "" ∧ goTrimSpaceL input.data = [] := by
  constructor
  · intro h
    cases hJ : isJSON input with
    | false =>
      rw [build_fallback instructions input hJ] at h
      rcases List.append_eq_nil.mp h with ⟨h1, h2⟩
      constructor
      · by_contra hne
        unfold sysTurnsOf at h1
        rw [if_neg hne] at h1
        exact absurd h1 (by simp)
      · cases hte : (goTrimSpaceL input.data).isEmpty with
        | false => rw [hte] at h2; simp at h2
        | true => exact eq_nil_of_isEmpty hte
    | true =>
      obtain ⟨p, hp, hne⟩ := exists_payload_of_isJSON input hJ
      rw [build_multiTurn instructions input p hp hne] at h
      rcases List.append_eq_nil.mp h with ⟨-, h2⟩
      exact absurd (List.map_eq_nil_iff.mp h2) hne
  · rintro ⟨h1, h2⟩
    have hp0 : inputPayload input = none := inputPayload_none_of_blank input h2
    have hJ : isJSON input = false := by simp [isJSON, hp0]
    rw [build_fallback instructions input hJ, h1, h2]
    simp [sysTurnsOf]

/-- C8: an input whose trimmed value starts with an opening brace but
fails to decode as the expected payload shape, or decodes to zero
messages, never surfaces an error: the builder falls back to plain-text
mode and appends exactly one user turn containing the original input
string verbatim, including the brace.  The builder is a total function,
so no error can be returned or raised. -/
theorem C8_decode_failure_falls_back (instructions input : String)
    (hne : goTrimSpaceL input.data ≠ [])
    (hbrace : (goTrimSpaceL input.data).head? = some '\x7b')
    (hdec : jsonUnmarshalPayload input = none ∨
            jsonUnmarshalPayload input = some ⟨[]⟩) :
    buildMessages instructions input =
      sysTurnsOf instructions ++ [⟨Role.user, input⟩] := by
  have hp : inputPayload input = jsonUnmarshalPayload input := by
    unfold inputPayload
    rw [if_pos ⟨hne, hbrace⟩]
  have hJ : isJSON input = false := by
    simp only [isJSON, hp]
    rcases hdec with h | h <;> simp [h]
  rw [build_fallback instructions input hJ]
  simp [isEmpty_false_of_ne_nil hne]

/-- Witness for C8 at the design document's non-payload JSON input. -/
theorem C8_decode_failure_falls_back_witness :
    buildMessages "" exampleNonPayloadInput =
      sysTurnsOf "" ++ [⟨Role.user, exampleNonPayloadInput⟩] :=
  C8_decode_failure_falls_back "" exampleNonPayloadInput
    (by decide) (by decide) (Or.inr (by decide))

/-- C9: New fails with the plain configuration-incomplete construction
error — a string error, not a ServiceError — and returns no service
when the API key credential is absent (empty), and succeeds when the
credential is present. -/
theorem C9_new_requires_api_key (m : LLM) :
    (m.apiKey = "" →
      New m = Except.error ("config incomplete for LLM: " ++ m.uuid)) ∧
    (m.apiKey ≠ "" → ∃ s : ServiceState, New m = Except.ok s) := by
  constructor
  · intro h
    unfold New
    rw [if_pos h]
  · intro h
    unfold New
    rw [if_neg h]
    exact ⟨_, rfl⟩

/-- Witness for C9 at a missing and at a present credential. -/
theorem C9_new_requires_api_key_witness :
    (New ⟨"1234", "", "", "gpt-4"⟩ =
      Except.error ("config incomplete for LLM: " ++ "1234")) ∧
    (∃ s : ServiceState, New ⟨"1234", "sk-key", "", "gpt-4"⟩ = Except.ok s) :=
  ⟨(C9_new_requires_api_key ⟨"1234", "", "", "gpt-4"⟩).1 rfl,
   (C9_new_requires_api_key ⟨"1234", "sk-key", "", "gpt-4"⟩).2 (by decide)⟩

/-- C10: the role switch compares by exact, case-sensitive string
equality: a role that differs from the lowercase literals system or
assistant only in ASCII case maps to a user turn, and at a payload with
roles System, SYSTEM and Assistant the builder produces only user
turns. -/
theorem C10_role_match_case_sensitive :
    (∀ r c : String,
        (asciiLower r = "system" ∨ asciiLower r = "assistant") →
        r ≠ "system" → r ≠ "assistant" →
        turnForMessage ⟨r, c⟩ = ⟨Role.user, c⟩) ∧
    buildMessages "" exampleCaseRolesInput =
      [⟨Role.user, "A"⟩, ⟨Role.user, "B"⟩, ⟨Role.user, "C"⟩] := by
  refine ⟨?_, by decide⟩
  intro r c _ h1 h2
  unfold turnForMessage
  rw [if_neg h1, if_neg h2]

/-- Witness for C10 at the capitalized role System. -/
theorem C10_role_match_case_sensitive_witness :
    turnForMessage ⟨"System", "x"⟩ = ⟨Role.user, "x"⟩ :=
  C10_role_match_case_sensitive.1 "System" "x" (Or.inl (by decide))
    (by decide) (by decide)
